import Mathlib

/-!
Shallow embedding of the TCPHandoff repository core:
`src/tcpha_fe_poll.c` (the readiness engine) and
`src/frontend/tcpha_fe_client_connection.c` (herders and dispatch).

Machine integers are modelled as `Nat` with explicit reductions modulo
`2^32` (for `__u32`) and `2^16` (for `__u16`); the reinterpretation of a
`__u32` as a C `int` return value is made explicit by `int32_of_u32`.
Kernel-library collaborators (`kmem_cache_*`, `list_add_tail`,
`add_wait_queue`, `atomic_*`) are modelled by their documented effect on
the state record.  `rb_insert_color` is the kernel-library rebalancing
routine (`lib/rbtree.c`).  Two models of the index insert are given:
`tcp_ep_hash_insert`, a rotation-free abstraction used by the
engine-level operations and exercised below only on traces where the
real code performs no rotation, and `tcp_ep_hash_insert_full`, which
transcribes the full insert including `rb_insert_color`'s recoloring
and rotations over an explicitly colored tree.  Rotations preserve
which items are stored but change the shape, and — because the wrapped
comparator is not transitive on the `2^32` circle — the shape decides
whether a present key is met by the insert descent; duplicate
detection is therefore settled against the full model.
-/

namespace TcphaFe

/-- `POLLIN` event bit. -/
def POLLIN : Nat := 1

/-- `POLLOUT` event bit. -/
def POLLOUT : Nat := 4

/-- `POLLERR` event bit. -/
def POLLERR : Nat := 8

/-- `POLLHUP` event bit. -/
def POLLHUP : Nat := 16

/-- `MAX_INT`, the initial value of `min_pool_size` in
`tcpha_fe_conn_create` (the C macro expands to `INT_MAX`). -/
def MAX_INT : Nat := 2147483647

/-- Wrapping `__u32` subtraction `a - b`, as in
`__u32 diff = leftsk->daddr - rightsk->daddr;` in `tcp_cmp_sock`. -/
def u32_wrap_sub (a b : Nat) : Nat :=
  (a % 4294967296 + (4294967296 - b % 4294967296)) % 4294967296

/-- The value of `diff = leftsk->dport - rightsk->dport;` in
`tcp_cmp_sock`: the `__u16` operands are promoted to `int`, subtracted
exactly, and the result is converted back to the `__u32` variable
`diff`, i.e. taken modulo `2^32`. -/
def u16_sub_as_u32 (a b : Nat) : Nat :=
  (a % 65536 + (4294967296 - b % 65536)) % 4294967296

/-- Reinterpretation of a `__u32` value as the C `int` returned by
`tcp_cmp_sock` (two's complement). -/
def int32_of_u32 (n : Nat) : Int :=
  if n % 4294967296 < 2147483648 then ((n % 4294967296 : Nat) : Int)
  else ((n % 4294967296 : Nat) : Int) - 4294967296

/-- A TCP socket as seen through `struct socket` / `inet_sk`: the remote
address `daddr` (`__u32`), the remote port `dport` (`__u16`), and the
readiness mask currently reported by `sock->ops->poll` (the model keeps
the poll snapshot on the socket since the engine only ever reads it). -/
structure socket where
  daddr : Nat
  dport : Nat
  ready : Nat
deriving DecidableEq, Repr

/-- `tcp_cmp_sock` from `src/tcpha_fe_poll.c`: wrapping `__u32`
difference of the remote addresses, with the port difference used when
the address difference is zero; the `__u32` variable is returned as a C
`int`. -/
def tcp_cmp_sock (leftsock rightsock : socket) : Int :=
  let diff := u32_wrap_sub leftsock.daddr rightsock.daddr
  let diff := if diff = 0 then u16_sub_as_u32 leftsock.dport rightsock.dport else diff
  int32_of_u32 diff

/-- `struct tcp_ep_item`: the socket it represents, its `event_flags`
interest mask, and its reference count `usecnt`.  The rb-tree and
ready-list linkage live in the containing structures of the model. -/
structure tcp_ep_item where
  sock : socket
  event_flags : Nat
  usecnt : Nat
deriving DecidableEq, Repr

/-- The rb-tree of `struct tcp_ep_item` nodes rooted at
`eventpoll->hash_root` (colors are omitted; see the module comment on
`rb_insert_color`). -/
inductive Rbtree where
  | nil : Rbtree
  | node (l : Rbtree) (item : tcp_ep_item) (r : Rbtree) : Rbtree
deriving DecidableEq, Repr

/-- In-order list of the items stored in a tree. -/
def Rbtree.elems : Rbtree → List tcp_ep_item
  | .nil => []
  | .node l item r => l.elems ++ item :: r.elems

/-- `tcp_ep_hash_insert`, rotation-free abstraction: descend from the
root comparing `tcp_cmp_sock(epic->sock, item->sock)`; return the error
(`none`, modelling `-1`) if an equal key is met; otherwise descend
right when the comparison is positive, left otherwise, and link the
item where a null child is reached.  `rb_insert_color` is elided here;
this abstraction is exact for every trace below in which the real code
performs no rotation (at most two stored items).  The full model with
recoloring and rotations is `tcp_ep_hash_insert_full` further down;
shape-dependent duplicate detection is settled against that model. -/
def tcp_ep_hash_insert : Rbtree → tcp_ep_item → Option Rbtree
  | .nil, item => some (.node .nil item .nil)
  | .node l epic r, item =>
    let cmp := tcp_cmp_sock epic.sock item.sock
    if cmp = 0 then none
    else if cmp > 0 then Option.map (fun t => Rbtree.node l epic t) (tcp_ep_hash_insert r item)
    else Option.map (fun t => Rbtree.node t epic r) (tcp_ep_hash_insert l item)

/-- `tcp_ep_hash_find`: descend from the root comparing
`tcp_cmp_sock(sock, item->sock)`; stop on zero, go left when the
comparison is negative, right otherwise. -/
def tcp_ep_hash_find : Rbtree → socket → Option tcp_ep_item
  | .nil, _ => none
  | .node l item r, sock =>
    let cmp := tcp_cmp_sock sock item.sock
    if cmp = 0 then some item
    else if cmp < 0 then tcp_ep_hash_find l sock
    else tcp_ep_hash_find r sock

/-- Node color of the kernel red-black tree (`rb_node`'s color bit). -/
inductive rb_color where
  | red : rb_color
  | black : rb_color
deriving DecidableEq, Repr

/-- The rb-tree rooted at `eventpoll->hash_root` with the node colors
carried explicitly, as required to model `rb_insert_color`. -/
inductive Crbtree where
  | nil : Crbtree
  | node (c : rb_color) (l : Crbtree) (item : tcp_ep_item) (r : Crbtree) : Crbtree
deriving DecidableEq, Repr

/-- In-order list of the items stored in a colored tree. -/
def Crbtree.elems : Crbtree → List tcp_ep_item
  | .nil => []
  | .node _ l item r => l.elems ++ item :: r.elems

/-- `rb_is_red` on a child pointer (`NULL` counts as black). -/
def rb_is_red : Crbtree → Bool
  | .node .red _ _ _ => true
  | _ => false

/-- `rb_set_black` on a subtree root (no-op on `NULL`). -/
def rb_blacken : Crbtree → Crbtree
  | .nil => .nil
  | .node _ l item r => .node .black l item r

/-- One ancestor on the descent path, replacing `lib/rbtree.c`'s parent
pointers: the color and item of the ancestor and the subtree on the
side the descent did not take (`left` means the descent went into the
left child, so `sib` is the right subtree, and symmetrically). -/
inductive rb_frame where
  | left (c : rb_color) (item : tcp_ep_item) (sib : Crbtree) : rb_frame
  | right (c : rb_color) (item : tcp_ep_item) (sib : Crbtree) : rb_frame
deriving DecidableEq, Repr

/-- Reattach a rebuilt subtree under one ancestor frame. -/
def rb_plug (t : Crbtree) : rb_frame → Crbtree
  | .left c item sib => .node c t item sib
  | .right c item sib => .node c sib item t

/-- Reattach a rebuilt subtree under the whole ancestor path (nearest
ancestor first), recovering the full tree. -/
def rb_rebuild : Crbtree → List rb_frame → Crbtree
  | t, [] => t
  | t, f :: rest => rb_rebuild (rb_plug t f) rest

/-- `rb_insert_color` from `lib/rbtree.c`, transcribed over the zipper:
while the parent of the current red subtree `z` is red, examine the
uncle at the grandparent; a red uncle means recolor parent and uncle
black, grandparent red, and continue from the grandparent; a black (or
null) uncle means a single rotation (z and parent on the same side) or
a double rotation (opposite sides) with the parent/new-root black and
the grandparent red, which ends the loop.  The root is finally set
black.  The nil-`z` fallbacks in the double-rotation cases are
unreachable (z is always a freshly made or recolored node) and rebuild
the tree unchanged. -/
def rb_insert_fixup : Crbtree → List rb_frame → Crbtree
  | z, [] => rb_blacken z
  | z, .left pc pitem psib :: rest =>
    if pc = .black then rb_blacken (rb_rebuild (Crbtree.node pc z pitem psib) rest)
    else
      match rest with
      | [] => rb_blacken (Crbtree.node pc z pitem psib)
      | .left _gc gitem gsib :: rest2 =>
        if rb_is_red gsib then
          rb_insert_fixup
            (Crbtree.node .red (Crbtree.node .black z pitem psib) gitem (rb_blacken gsib))
            rest2
        else
          rb_blacken (rb_rebuild
            (Crbtree.node .black z pitem (Crbtree.node .red psib gitem gsib)) rest2)
      | .right gc gitem gsib :: rest2 =>
        if rb_is_red gsib then
          rb_insert_fixup
            (Crbtree.node .red (rb_blacken gsib) gitem (Crbtree.node .black z pitem psib))
            rest2
        else
          match z with
          | .nil =>
            rb_blacken (rb_rebuild
              (rb_plug (rb_plug z (.left pc pitem psib)) (.right gc gitem gsib)) rest2)
          | .node _zc zl zitem zr =>
            rb_blacken (rb_rebuild
              (Crbtree.node .black (Crbtree.node .red gsib gitem zl) zitem
                (Crbtree.node .red zr pitem psib)) rest2)
  | z, .right pc pitem psib :: rest =>
    if pc = .black then rb_blacken (rb_rebuild (Crbtree.node pc psib pitem z) rest)
    else
      match rest with
      | [] => rb_blacken (Crbtree.node pc psib pitem z)
      | .right _gc gitem gsib :: rest2 =>
        if rb_is_red gsib then
          rb_insert_fixup
            (Crbtree.node .red (rb_blacken gsib) gitem (Crbtree.node .black psib pitem z))
            rest2
        else
          rb_blacken (rb_rebuild
            (Crbtree.node .black (Crbtree.node .red gsib gitem psib) pitem z) rest2)
      | .left gc gitem gsib :: rest2 =>
        if rb_is_red gsib then
          rb_insert_fixup
            (Crbtree.node .red (Crbtree.node .black psib pitem z) gitem (rb_blacken gsib))
            rest2
        else
          match z with
          | .nil =>
            rb_blacken (rb_rebuild
              (rb_plug (rb_plug z (.right pc pitem psib)) (.left gc gitem gsib)) rest2)
          | .node _zc zl zitem zr =>
            rb_blacken (rb_rebuild
              (Crbtree.node .black (Crbtree.node .red psib pitem zl) zitem
                (Crbtree.node .red zr gitem gsib)) rest2)

/-- The descent loop of `tcp_ep_hash_insert` over the colored tree,
accumulating the ancestor path: comparing
`tcp_cmp_sock(epic->sock, item->sock)`, return the duplicate error
(`none`) on an equal key, go right on a positive comparison and left
otherwise, and at a null child link the new node red (`rb_link_node`)
and run `rb_insert_fixup`. -/
def rb_insert_descent : Crbtree → tcp_ep_item → List rb_frame → Option Crbtree
  | .nil, item, path => some (rb_insert_fixup (.node .red .nil item .nil) path)
  | .node c l epic r, item, path =>
    let cmp := tcp_cmp_sock epic.sock item.sock
    if cmp = 0 then none
    else if cmp > 0 then rb_insert_descent r item (.right c epic l :: path)
    else rb_insert_descent l item (.left c epic r :: path)

/-- `tcp_ep_hash_insert` including `rb_insert_color`: the full model of
the index insert over the colored tree. -/
def tcp_ep_hash_insert_full (t : Crbtree) (item : tcp_ep_item) : Option Crbtree :=
  rb_insert_descent t item []

/-- Number of items in a colored tree whose socket key compares equal
(under `tcp_cmp_sock`) to the given socket. -/
def count_key_full (t : Crbtree) (s : socket) : Nat :=
  (t.elems.filter (fun i => tcp_cmp_sock i.sock s == 0)).length

/-- `struct tcp_eventpoll`: the rb-tree root, the ready list (FIFO,
head at the front), the set of sockets whose sleep queue currently holds
this engine's wait-queue entry (`add_wait_queue` target), and the
`should_wake` teardown flag. -/
structure tcp_eventpoll where
  hash_root : Rbtree
  ready_list : List tcp_ep_item
  sleep_attached : List socket
  should_wake : Bool
deriving DecidableEq, Repr

/-- The empty engine produced by `tcp_epoll_init`. -/
def tcp_epoll_empty : tcp_eventpoll :=
  { hash_root := .nil, ready_list := [], sleep_attached := [], should_wake := false }

/-- `tcp_epoll_check_events`: `item->event_flags & poll(NULL, item->sock, NULL)`;
the poll result is the socket's `ready` snapshot. -/
def tcp_epoll_check_events (item : tcp_ep_item) : Nat :=
  item.event_flags &&& item.sock.ready

/-- `add_item_to_readylist`: `list_add_tail(&item->rd_list_link, &eventpoll->ready_list)`. -/
def add_item_to_readylist (ep : tcp_eventpoll) (item : tcp_ep_item) : tcp_eventpoll :=
  { ep with ready_list := ep.ready_list ++ [item] }

/-- `get_ep_item`: `atomic_inc(&item->usecnt)`. -/
def get_ep_item (item : tcp_ep_item) : tcp_ep_item :=
  { item with usecnt := item.usecnt + 1 }

/-- `tcp_ep_item_alloc`: returns `-1` when the global
`tcp_ep_item_cachep` is `NULL` (modelled by `cache_exists = false`),
`-ENOMEM` (`-12`) when `kmem_cache_alloc` fails (`alloc_ok = false`),
and otherwise an item initialised with `event_flags = 0` and
`usecnt = 1` (returned as the pair of those two fields; the socket is
filled in by the caller). -/
def tcp_ep_item_alloc (cache_exists alloc_ok : Bool) : Except Int (Nat × Nat) :=
  if cache_exists = false then .error (-1)
  else if alloc_ok = false then .error (-12)
  else .ok (0, 1)

/-- `tcp_ep_item_free`: `atomic_dec_and_test(&item->usecnt)` frees the
item when the count reaches zero (`none`); otherwise the item survives
with the decremented count. -/
def tcp_ep_item_free (item : tcp_ep_item) : Option tcp_ep_item :=
  if item.usecnt - 1 = 0 then none else some { item with usecnt := item.usecnt - 1 }

/-- Result of `tcp_epoll_insert`: the returned error code, the engine
state (including the socket sleep-queue attachments it owns), and
whether the failure path freed the freshly allocated item. -/
structure InsertResult where
  ret : Int
  ep : tcp_eventpoll
  freed_item : Bool
deriving DecidableEq, Repr

/-- `tcp_epoll_insert` from `src/tcpha_fe_poll.c`: allocate an item,
set its socket and `event_flags = flags | POLLERR | POLLHUP`, add it to
the hash (duplicate key makes `tcp_ep_hash_insert` fail, upon which the
item is freed and the error returned), push it onto the ready list when
`tcp_epoll_check_events` is non-zero, and finally `add_wait_queue` the
item's wait entry onto the socket's sleep queue. -/
def tcp_epoll_insert (cache_exists alloc_ok : Bool) (ep : tcp_eventpoll)
    (sock : socket) (flags : Nat) : InsertResult :=
  match tcp_ep_item_alloc cache_exists alloc_ok with
  | .error e => { ret := e, ep := ep, freed_item := false }
  | .ok (ef0, uc) =>
    let item0 : tcp_ep_item := { sock := sock, event_flags := ef0, usecnt := uc }
    let item := { item0 with event_flags := flags ||| POLLERR ||| POLLHUP }
    match tcp_ep_hash_insert ep.hash_root item with
    | none =>
      { ret := -1, ep := ep, freed_item := (tcp_ep_item_free item).isNone }
    | some root1 =>
      let ep1 := { ep with hash_root := root1 }
      let mask := tcp_epoll_check_events item
      let ep2 := if mask ≠ 0 then add_item_to_readylist ep1 item else ep1
      let ep3 := { ep2 with sleep_attached := ep2.sleep_attached ++ [sock] }
      { ret := 0, ep := ep3, freed_item := false }

/-- `tcp_epoll_remove` from `src/tcpha_fe_poll.c`: looks the item up
(the source calls `tcp_ep_hash_find` passing only the socket; the tree
of `eventpoll` is the evident intent), returns silently when it is not
found, and — as the body past that point consists only of comments —
performs no detachment, no ready-list removal and no reference drop in
the found case either. -/
def tcp_epoll_remove (ep : tcp_eventpoll) (sock : socket) : tcp_eventpoll :=
  match tcp_ep_hash_find ep.hash_root sock with
  | none => ep
  | some _ => ep

/-- `tcp_epoll_wait` from `src/tcpha_fe_poll.c`: the body is
`return -1;` regardless of the engine, `maxevents` and `timeout`; the
output buffer is never written (modelled as the empty list). -/
def tcp_epoll_wait (_eventpoll : tcp_eventpoll) (_maxevents _timeout : Int) :
    Int × List socket :=
  (-1, [])

/-- Result of one invocation of the wakeup callback. -/
structure WakeupResult where
  ret : Int
  item : tcp_ep_item
  ep : tcp_eventpoll
  mask : Nat
deriving DecidableEq, Repr

/-- `tcp_epoll_wakeup` from `src/tcpha_fe_poll.c` (the live code after
the commented-out block): recover the item, `get_ep_item` it, evaluate
`tcp_epoll_check_events`, `printk` when the mask is non-zero, and return
1.  The reference taken is never dropped, nothing is added to the ready
list and no waiter is woken. -/
def tcp_epoll_wakeup (ep : tcp_eventpoll) (item : tcp_ep_item) : WakeupResult :=
  let item := get_ep_item item
  let mask := tcp_epoll_check_events item
  { ret := 1, item := item, ep := ep, mask := mask }

/-- `struct tcpha_fe_conn`: the owned socket and the `alive` counter
(set to 2 at creation). -/
structure tcpha_fe_conn where
  csock : socket
  alive : Nat
deriving DecidableEq, Repr

/-- `struct tcpha_fe_herder`: cpu identity, connection pool (head of the
list at the front, as `list_add` prepends), the atomic `pool_size`
counter, and the herder's eventpoll. -/
structure tcpha_fe_herder where
  cpu : Nat
  conn_pool : List tcpha_fe_conn
  pool_size : Nat
  eventpoll : tcp_eventpoll
deriving DecidableEq, Repr

/-- The scan for the least-loaded herder inside `tcpha_fe_conn_create`:
`min_pool_size` starts at `MAX_INT` and `least_loaded` is updated
whenever a strictly smaller `pool_size` is read, so the returned index
is the last position where a strict improvement happened — the first
position attaining the minimum.  `none` models `least_loaded == NULL`. -/
def least_loaded_scan : List tcpha_fe_herder → Nat → Option Nat
  | [], _ => none
  | h :: t, m =>
    if h.pool_size < m then
      match least_loaded_scan t h.pool_size with
      | some j => some (j + 1)
      | none => some 0
    else
      Option.map (fun j => j + 1) (least_loaded_scan t m)

/-- The effect of `tcpha_fe_conn_create` on the chosen herder:
`list_add(&connection->list, &least_loaded->conn_pool)` (prepend),
`atomic_inc(&least_loaded->pool_size)`, followed by
`tcp_epoll_insert(least_loaded->eventpoll, connection, POLLIN)` (the
source passes the connection record where a socket is expected; the
evident intent, the connection's socket, is modelled, with the item
cache assumed available). -/
def conn_pool_add : List tcpha_fe_herder → Nat → socket → List tcpha_fe_herder
  | [], _, _ => []
  | h :: t, 0, s =>
    { h with conn_pool := { csock := s, alive := 2 } :: h.conn_pool,
             pool_size := h.pool_size + 1,
             eventpoll := (tcp_epoll_insert true true h.eventpoll s POLLIN).ep } :: t
  | h :: t, i + 1, s => h :: conn_pool_add t i s

/-- Result of `tcpha_fe_conn_create`: return value, herder list, and
whether the call dereferenced a null pointer on the way. -/
structure ConnCreateResult where
  ret : Int
  herders : List tcpha_fe_herder
  null_deref : Bool
deriving DecidableEq, Repr

/-- `tcpha_fe_conn_create` from
`src/frontend/tcpha_fe_client_connection.c`: allocates the connection
from `tcpha_fe_conn_cachep` without checking for `NULL` (an allocation
failure is an immediate null store through `connection->csock`), scans
for the least-loaded herder, links the connection and bumps the counter
when one was found, then unconditionally calls
`tcp_epoll_insert(least_loaded->eventpoll, ...)` — a null dereference
when the herder list was empty — and returns 0 on every path. -/
def tcpha_fe_conn_create (alloc_ok : Bool) (herders : List tcpha_fe_herder)
    (sock : socket) : ConnCreateResult :=
  if alloc_ok = false then
    { ret := 0, herders := herders, null_deref := true }
  else
    match least_loaded_scan herders MAX_INT with
    | none => { ret := 0, herders := herders, null_deref := true }
    | some i => { ret := 0, herders := conn_pool_add herders i sock, null_deref := false }

/-- `n` sequential successful-allocation calls of `tcpha_fe_conn_create`
against the herder list, dispatching socket `socks k` in call `k`. -/
def conn_create_iter (socks : Nat → socket) : Nat → List tcpha_fe_herder → List tcpha_fe_herder
  | 0, hs => hs
  | n + 1, hs => (tcpha_fe_conn_create true (conn_create_iter socks n hs) (socks n)).herders

/-- The shard load counters of a herder list, in list order. -/
def load_list (hs : List tcpha_fe_herder) : List Nat :=
  hs.map (fun h => h.pool_size)

/-- The least-loaded scan as a function of the load counters alone. -/
def nat_scan : List Nat → Nat → Option Nat
  | [], _ => none
  | x :: t, m =>
    if x < m then
      match nat_scan t x with
      | some j => some (j + 1)
      | none => some 0
    else
      Option.map (fun j => j + 1) (nat_scan t m)

/-- Increment the entry at an index of a list of counters. -/
def inc_at : List Nat → Nat → List Nat
  | [], _ => []
  | x :: t, 0 => (x + 1) :: t
  | x :: t, i + 1 => x :: inc_at t i

/-- Index `i` holds a minimal entry of `l` and every earlier entry is
strictly larger (the first-encountered-minimum tie-break). -/
def is_first_min (l : List Nat) (i : Nat) : Prop :=
  i < l.length ∧ (∀ j, j < l.length → l.getD i 0 ≤ l.getD j 0) ∧
    (∀ j, j < i → l.getD j 0 > l.getD i 0)

/-- The process-wide state of the connection-record slab cache
(`tcpha_fe_conn_cachep` together with `mem_cache_use`):
whether the pointer is `NULL`, whether the object it refers to is a
live (created and not destroyed) cache, and the use count. -/
structure conn_cache_state where
  cachep_null : Bool
  cache_live : Bool
  mem_cache_use : Int
deriving DecidableEq, Repr

/-- The cache-lifecycle projection of `init_connections` from
`src/frontend/tcpha_fe_client_connection.c`, with all allocations and
herder starts succeeding: `atomic_inc(&mem_cache_use)`, then the cache
is created only `if (tcpha_fe_conn_cachep == NULL)` — the guard is the
pointer, not the use count. -/
def init_connections (st : conn_cache_state) : conn_cache_state :=
  let st := { st with mem_cache_use := st.mem_cache_use + 1 }
  if st.cachep_null then { st with cachep_null := false, cache_live := true } else st

/-- The cache-lifecycle projection of `destroy_connections`:
`atomic_dec_and_test(&mem_cache_use)` destroys the cache when the count
reaches zero; the pointer `tcpha_fe_conn_cachep` is left as is (it is
never reset to `NULL`). -/
def destroy_connections (st : conn_cache_state) : conn_cache_state :=
  let st1 := { st with mem_cache_use := st.mem_cache_use - 1 }
  if st1.mem_cache_use = 0 then { st1 with cache_live := false } else st1

/-- The fresh process state: `tcpha_fe_conn_cachep = NULL`,
`mem_cache_use = 0`. -/
def conn_cache_fresh : conn_cache_state :=
  { cachep_null := true, cache_live := false, mem_cache_use := 0 }

/-- Socket fixture: remote endpoint 5:0, no pending readiness. -/
def sock_a : socket := { daddr := 5, dport := 0, ready := 0 }

/-- Socket fixture: remote endpoint 3:0, no pending readiness. -/
def sock_b : socket := { daddr := 3, dport := 0, ready := 0 }

/-- Socket fixture: remote endpoint 9:80, currently readable. -/
def sock_r : socket := { daddr := 9, dport := 80, ready := POLLIN }

/-- Item fixture keyed by `sock_a`, watching `POLLIN`. -/
def item_a : tcp_ep_item :=
  { sock := sock_a, event_flags := POLLIN ||| POLLERR ||| POLLHUP, usecnt := 1 }

/-- Item fixture keyed by `sock_b`, watching `POLLIN`. -/
def item_b : tcp_ep_item :=
  { sock := sock_b, event_flags := POLLIN ||| POLLERR ||| POLLHUP, usecnt := 1 }

/-- Item fixture keyed by `sock_r`, watching `POLLIN`, refcount 1. -/
def item_r : tcp_ep_item :=
  { sock := sock_r, event_flags := POLLIN ||| POLLERR ||| POLLHUP, usecnt := 1 }

/-- Engine fixture: `sock_a` inserted into the empty engine. -/
def ep_one : tcp_eventpoll := (tcp_epoll_insert true true tcp_epoll_empty sock_a POLLIN).ep

/-- Herder-list fixture: two herders with empty shards. -/
def hs_w : List tcpha_fe_herder :=
  [{ cpu := 0, conn_pool := [], pool_size := 0, eventpoll := tcp_epoll_empty },
   { cpu := 1, conn_pool := [], pool_size := 0, eventpoll := tcp_epoll_empty }]

/-- Socket-stream fixture for iterated dispatch: distinct remote addresses. -/
def socks_w : Nat → socket := fun k => { daddr := k, dport := 0, ready := 0 }

/-- A socket with the given remote address, port 0, no readiness. -/
def dup_sock (d : Nat) : socket := { daddr := d, dport := 0, ready := 0 }

/-- The event item `tcp_epoll_insert` builds for `dup_sock d` watching
`POLLIN`. -/
def dup_item (d : Nat) : tcp_ep_item :=
  { sock := dup_sock d, event_flags := POLLIN ||| POLLERR ||| POLLHUP, usecnt := 1 }

/-- Remote addresses whose insertion order drives `rb_insert_color`
into a right rotation at the root that hoists 0x40000000 above
0xB0000000, after which the insert descent for key 0xB0000000 turns
left at the root (the wrapped comparator mis-signs the difference
0x90000000) and no longer meets the stored item. -/
def dup_keys : List Nat :=
  [0x0, 0x40000000, 0xB0000000, 0x60000000, 0x20000000, 0x70000000, 0x50000000, 0x78000000]

/-- The index obtained by inserting the items for `dup_keys` in order
into the empty colored tree (every step succeeds). -/
def dup_tree_opt : Option Crbtree :=
  List.foldl (fun acc d => acc.bind (fun t => tcp_ep_hash_insert_full t (dup_item d)))
    (some .nil) dup_keys

/-! ## Properties of the hash insert -/

lemma hash_insert_mem {t t2 : Rbtree} {item : tcp_ep_item}
    (h : tcp_ep_hash_insert t item = some t2) : item ∈ t2.elems := by
  induction t generalizing t2 with
  | nil =>
    simp only [tcp_ep_hash_insert, Option.some_inj] at h
    subst h
    simp [Rbtree.elems]
  | node l epic r ihl ihr =>
    simp only [tcp_ep_hash_insert] at h
    by_cases h0 : tcp_cmp_sock epic.sock item.sock = 0
    · simp [h0] at h
    · by_cases hgt : tcp_cmp_sock epic.sock item.sock > 0
      · simp only [h0, if_false, hgt, if_true, if_neg, if_pos] at h
        rcases Option.map_eq_some'.mp h with ⟨t1, ht1, rfl⟩
        simp [Rbtree.elems, ihr ht1]
      · simp only [h0, if_false, hgt, if_neg] at h
        rcases Option.map_eq_some'.mp h with ⟨t1, ht1, rfl⟩
        simp [Rbtree.elems, ihl ht1]

/-! ## Claim theorems for the readiness engine -/

/-- C8: the duplicate check of the real index insert —
`tcp_ep_hash_insert` together with `rb_insert_color`, modelled in full
by `tcp_ep_hash_insert_full` — misses a present key: the eight distinct
addresses of `dup_keys` all insert successfully and the resulting index
holds exactly one item for key 0xB0000000, yet inserting that present
key again also succeeds (no duplicate error, no rollback, no freed
item), leaving the index with two items for the key; the claim's
allocation-failure leg does hold (`-ENOMEM`, engine unchanged, nothing
freed). -/
theorem tcp_epoll_insert_duplicate_missed :
    dup_tree_opt.isSome = true ∧
    dup_tree_opt.map (fun t => count_key_full t (dup_sock 0xB0000000)) = some 1 ∧
    (dup_tree_opt.bind (fun t => tcp_ep_hash_insert_full t (dup_item 0xB0000000))).map
      (fun t => count_key_full t (dup_sock 0xB0000000)) = some 2 ∧
    (∀ ep2 sock2 flags2, tcp_epoll_insert true false ep2 sock2 flags2 =
      { ret := -12, ep := ep2, freed_item := false }) :=
  ⟨by decide, by decide, by decide, fun _ _ _ => rfl⟩

/-- C7: every successful `tcp_epoll_insert` stores in the index an item
for the socket whose event mask is `flags | POLLERR | POLLHUP`, attaches
the wait-queue entry to the socket sleep queue, and appends the item to
the ready list exactly when the socket's current readiness intersects
that mask. -/
theorem tcp_epoll_insert_success_spec (c a : Bool) (ep : tcp_eventpoll) (sock : socket)
    (flags : Nat) (h : (tcp_epoll_insert c a ep sock flags).ret = 0) :
    ∃ item, item ∈ (tcp_epoll_insert c a ep sock flags).ep.hash_root.elems ∧
      item.sock = sock ∧
      item.event_flags = flags ||| POLLERR ||| POLLHUP ∧
      (tcp_epoll_insert c a ep sock flags).ep.sleep_attached = ep.sleep_attached ++ [sock] ∧
      (tcp_epoll_insert c a ep sock flags).ep.ready_list =
        (if (flags ||| POLLERR ||| POLLHUP) &&& sock.ready ≠ 0
         then ep.ready_list ++ [item] else ep.ready_list) := by
  cases c with
  | false => simp [tcp_epoll_insert, tcp_ep_item_alloc] at h
  | true =>
    cases a with
    | false => simp [tcp_epoll_insert, tcp_ep_item_alloc] at h
    | true =>
      have halloc : tcp_ep_item_alloc true true = Except.ok (0, 1) := rfl
      cases hins : tcp_ep_hash_insert ep.hash_root
          { sock := sock, event_flags := flags ||| POLLERR ||| POLLHUP, usecnt := 1 } with
      | none =>
        exfalso
        simp only [tcp_epoll_insert, halloc] at h
        simp only [hins] at h
        exact absurd h (by decide)
      | some root1 =>
        have hres : tcp_epoll_insert true true ep sock flags =
            { ret := 0,
              ep := { hash_root := root1,
                      ready_list :=
                        if (flags ||| POLLERR ||| POLLHUP) &&& sock.ready ≠ 0
                        then ep.ready_list ++
                          [{ sock := sock, event_flags := flags ||| POLLERR ||| POLLHUP,
                             usecnt := 1 }]
                        else ep.ready_list,
                      sleep_attached := ep.sleep_attached ++ [sock],
                      should_wake := ep.should_wake },
              freed_item := false } := by
          simp only [tcp_epoll_insert, halloc, hins, tcp_epoll_check_events,
            add_item_to_readylist]
          split <;> rfl
        refine ⟨{ sock := sock, event_flags := flags ||| POLLERR ||| POLLHUP, usecnt := 1 },
          ?_, rfl, rfl, by rw [hres], by rw [hres]⟩
        rw [hres]
        exact hash_insert_mem hins

/-- C7 witness: inserting the readable socket `sock_r` with interest
`POLLIN` into the empty engine succeeds and exhibits the insert
contract. -/
theorem tcp_epoll_insert_success_spec_witness :
    ((tcp_epoll_insert true true tcp_epoll_empty sock_r POLLIN).ret = 0) ∧
    (∃ item, item ∈ (tcp_epoll_insert true true tcp_epoll_empty sock_r POLLIN).ep.hash_root.elems ∧
      item.sock = sock_r ∧
      item.event_flags = POLLIN ||| POLLERR ||| POLLHUP ∧
      (tcp_epoll_insert true true tcp_epoll_empty sock_r POLLIN).ep.sleep_attached =
        tcp_epoll_empty.sleep_attached ++ [sock_r] ∧
      (tcp_epoll_insert true true tcp_epoll_empty sock_r POLLIN).ep.ready_list =
        (if (POLLIN ||| POLLERR ||| POLLHUP) &&& sock_r.ready ≠ 0
         then tcp_epoll_empty.ready_list ++ [item] else tcp_epoll_empty.ready_list)) :=
  ⟨by decide, tcp_epoll_insert_success_spec true true tcp_epoll_empty sock_r POLLIN (by decide)⟩

/-- C1: `tcp_epoll_wait` is an unimplemented stub: it returns `-1` for
every engine, `maxevents` and `timeout`, never writes the output
buffer, and in particular does not return 0 when `maxevents` is 0. -/
theorem tcp_epoll_wait_stub_neg_one :
    (∀ ep maxevents timeout, tcp_epoll_wait ep maxevents timeout = (-1, [])) ∧
    (tcp_epoll_wait tcp_epoll_empty 0 0).1 ≠ 0 :=
  ⟨fun _ _ _ => rfl, by decide⟩

/-- C2: the index does not realize the key order consistently between
insert and find: inserting the item for remote 3:0 into the index
holding remote 5:0 links it as the right child (the insert descent
sends smaller keys right), after which `tcp_ep_hash_find` — which walks
left on a negative comparison — fails to find the stored item and
returns null. -/
theorem hash_insert_find_inconsistent :
    tcp_ep_hash_insert (Rbtree.node Rbtree.nil item_a Rbtree.nil) item_b =
      some (Rbtree.node Rbtree.nil item_a (Rbtree.node Rbtree.nil item_b Rbtree.nil)) ∧
    item_b ∈ (Rbtree.node Rbtree.nil item_a
      (Rbtree.node Rbtree.nil item_b Rbtree.nil)).elems ∧
    tcp_ep_hash_find (Rbtree.node Rbtree.nil item_a
      (Rbtree.node Rbtree.nil item_b Rbtree.nil)) sock_b = none := by
  refine ⟨by decide, by decide, by decide⟩

/-- C3: `tcpha_fe_conn_create` performs no error handling: called on an
empty herder list it dereferences the null `least_loaded` pointer and
still returns 0 (success), and on allocation failure it stores through
the null connection pointer instead of returning an error and rolling
back. -/
theorem conn_create_missing_error_handling :
    tcpha_fe_conn_create true [] sock_a =
      { ret := 0, herders := [], null_deref := true } ∧
    tcpha_fe_conn_create false hs_w sock_a =
      { ret := 0, herders := hs_w, null_deref := true } := by
  refine ⟨by decide, by decide⟩

/-- C4: the wakeup callback takes the extra reference but never drops
it, and — although the socket state intersects the interest mask — it
neither appends the item to the ready list nor wakes any waiter: a
completed invocation leaves the reference count incremented by one and
the engine untouched. -/
theorem wakeup_leaks_reference :
    (tcp_epoll_wakeup tcp_epoll_empty item_r).mask ≠ 0 ∧
    (tcp_epoll_wakeup tcp_epoll_empty item_r).item.usecnt = item_r.usecnt + 1 ∧
    (tcp_epoll_wakeup tcp_epoll_empty item_r).ep = tcp_epoll_empty ∧
    (tcp_epoll_wakeup tcp_epoll_empty item_r).ret = 1 := by
  refine ⟨by decide, by decide, by decide, by decide⟩

/-- C5: `tcp_epoll_remove` is a stub past the lookup: after inserting
`sock_a` into the empty engine, removing it changes nothing — the item
stays in the index and the wait-queue attachment remains — so
insert-then-remove does not restore the pre-insert engine. -/
theorem remove_is_stub :
    (tcp_epoll_insert true true tcp_epoll_empty sock_a POLLIN).ret = 0 ∧
    tcp_epoll_remove ep_one sock_a = ep_one ∧
    ep_one ≠ tcp_epoll_empty := by
  refine ⟨by decide, by decide, by decide⟩

/-- C9: the connection-record cache is created only when the cache
pointer is null, not when the use count rises from 0 to 1, and the
pointer is not reset on destruction: after `init_connections`,
`destroy_connections`, `init_connections`, the use count has risen from
0 to 1 a second time but no live cache exists, so subsequent operations
use a destroyed cache. -/
theorem conn_cache_not_recreated :
    (init_connections conn_cache_fresh).mem_cache_use = 1 ∧
    (init_connections conn_cache_fresh).cache_live = true ∧
    (destroy_connections (init_connections conn_cache_fresh)).mem_cache_use = 0 ∧
    (init_connections (destroy_connections (init_connections conn_cache_fresh))).mem_cache_use
      = 1 ∧
    (init_connections (destroy_connections (init_connections conn_cache_fresh))).cache_live
      = false := by
  refine ⟨by decide, by decide, by decide, by decide, by decide⟩

/-- C10: when the global item cache does not exist,
`tcp_ep_item_alloc` detects the null cache and returns `-1`, and
`tcp_epoll_insert` propagates that error with the engine left
completely unchanged and nothing freed. -/
theorem insert_fails_without_item_cache :
    (∀ a, tcp_ep_item_alloc false a = Except.error (-1)) ∧
    (∀ a ep sock flags, tcp_epoll_insert false a ep sock flags =
      { ret := -1, ep := ep, freed_item := false }) :=
  ⟨fun _ => rfl, fun _ _ _ _ => rfl⟩

/-! ## The least-loaded scan and the balance of iterated dispatch -/

lemma least_loaded_scan_eq_nat_scan (hs : List tcpha_fe_herder) (m : Nat) :
    least_loaded_scan hs m = nat_scan (load_list hs) m := by
  induction hs generalizing m with
  | nil => rfl
  | cons h t ih =>
    by_cases hlt : h.pool_size < m
    · simp only [least_loaded_scan, load_list, List.map_cons, nat_scan, if_pos hlt]
      rw [ih h.pool_size]
      rfl
    · simp only [least_loaded_scan, load_list, List.map_cons, nat_scan, if_neg hlt]
      rw [ih m]
      rfl

lemma nat_scan_none {l : List Nat} {m : Nat} (h : nat_scan l m = none) :
    ∀ j, j < l.length → m ≤ l.getD j 0 := by
  induction l generalizing m with
  | nil => intro j hj; simp at hj
  | cons x t ih =>
    intro j hj
    by_cases hx : x < m
    · exfalso
      simp only [nat_scan, if_pos hx] at h
      cases hscan : nat_scan t x <;> simp [hscan] at h
    · simp only [nat_scan, if_neg hx, Option.map_eq_none'] at h
      cases j with
      | zero => simpa using Nat.le_of_not_lt hx
      | succ j =>
        simp only [List.getD_cons_succ]
        exact ih h j (by simpa using hj)

lemma nat_scan_some {l : List Nat} {m i : Nat} (h : nat_scan l m = some i) :
    i < l.length ∧ l.getD i 0 < m ∧
      (∀ j, j < l.length → l.getD i 0 ≤ l.getD j 0 ∨ m ≤ l.getD j 0) ∧
      (∀ j, j < i → l.getD i 0 < l.getD j 0) := by
  induction l generalizing m i with
  | nil => simp [nat_scan] at h
  | cons x t ih =>
    by_cases hx : x < m
    · simp only [nat_scan, if_pos hx] at h
      cases hscan : nat_scan t x with
      | none =>
        rw [hscan] at h
        simp only [Option.some_inj] at h
        subst h
        refine ⟨by simp, by simpa using hx, ?_, by intro j hj; omega⟩
        intro j hj
        cases j with
        | zero => exact Or.inl (Nat.le_refl _)
        | succ j =>
          left
          simpa using nat_scan_none hscan j (by simpa using hj)
      | some j0 =>
        rw [hscan] at h
        simp only [Option.some_inj] at h
        subst h
        obtain ⟨h1, h2, h3, h4⟩ := ih hscan
        refine ⟨by simpa using h1, ?_, ?_, ?_⟩
        · simp only [List.getD_cons_succ]
          exact Nat.lt_trans h2 hx
        · intro j hj
          cases j with
          | zero =>
            left
            simpa using Nat.le_of_lt h2
          | succ j =>
            simp only [List.getD_cons_succ]
            rcases h3 j (by simpa using hj) with hle | hm
            · exact Or.inl hle
            · exact Or.inl (Nat.le_trans (Nat.le_of_lt h2) hm)
        · intro j hj
          cases j with
          | zero => simpa using h2
          | succ j =>
            simp only [List.getD_cons_succ]
            exact h4 j (by omega)
    · simp only [nat_scan, if_neg hx] at h
      cases hscan : nat_scan t m with
      | none => rw [hscan] at h; simp at h
      | some j0 =>
        rw [hscan] at h
        simp only [Option.map_some', Option.some_inj] at h
        subst h
        obtain ⟨h1, h2, h3, h4⟩ := ih hscan
        refine ⟨by simpa using h1, by simpa using h2, ?_, ?_⟩
        · intro j hj
          cases j with
          | zero =>
            right
            simpa using Nat.le_of_not_lt hx
          | succ j =>
            simp only [List.getD_cons_succ]
            exact h3 j (by simpa using hj)
        · intro j hj
          cases j with
          | zero =>
            have := Nat.le_of_not_lt hx
            simp only [List.getD_cons_succ, List.getD_cons_zero]
            exact Nat.lt_of_lt_of_le h2 this
          | succ j =>
            simp only [List.getD_cons_succ]
            exact h4 j (by omega)

lemma nat_scan_replicate_self (b q : Nat) : nat_scan (List.replicate b q) q = none := by
  induction b with
  | zero => rfl
  | succ b ih => simp [List.replicate_succ, nat_scan, ih]

lemma nat_scan_replicate_lt (b q m : Nat) (h : q < m) :
    nat_scan (List.replicate (b + 1) q) m = some 0 := by
  simp [List.replicate_succ, nat_scan, h, nat_scan_replicate_self]

lemma nat_scan_shape_inner (a q b : Nat) :
    nat_scan (List.replicate a (q + 1) ++ List.replicate (b + 1) q) (q + 1) = some a := by
  induction a with
  | zero => simpa using nat_scan_replicate_lt b q (q + 1) (Nat.lt_succ_self q)
  | succ a ih =>
    rw [List.replicate_succ, List.cons_append]
    simp [nat_scan, ih]

lemma nat_scan_shape (a q b m : Nat) (h : q + 1 < m) :
    nat_scan (List.replicate a (q + 1) ++ List.replicate (b + 1) q) m = some a := by
  cases a with
  | zero => simpa using nat_scan_replicate_lt b q m (by omega)
  | succ a =>
    rw [List.replicate_succ, List.cons_append]
    simp [nat_scan, h, nat_scan_shape_inner a q b]

lemma inc_at_replicate_append (a x : Nat) (l : List Nat) :
    inc_at (List.replicate a x ++ l) a = List.replicate a x ++ inc_at l 0 := by
  induction a with
  | zero => simp
  | succ a ih =>
    rw [List.replicate_succ, List.cons_append, List.cons_append]
    simp [inc_at, ih]

lemma load_list_conn_pool_add (hs : List tcpha_fe_herder) (i : Nat) (s : socket) :
    load_list (conn_pool_add hs i s) = inc_at (load_list hs) i := by
  induction hs generalizing i with
  | nil => cases i <;> rfl
  | cons h t ih =>
    cases i with
    | zero => simp [conn_pool_add, load_list, inc_at]
    | succ i =>
      simp only [conn_pool_add, load_list, List.map_cons, inc_at, List.cons_inj_right]
      simpa [load_list] using ih i

lemma tcpha_fe_conn_create_true (hs : List tcpha_fe_herder) (s : socket) :
    tcpha_fe_conn_create true hs s =
      (match least_loaded_scan hs MAX_INT with
       | none => { ret := 0, herders := hs, null_deref := true }
       | some i => { ret := 0, herders := conn_pool_add hs i s, null_deref := false }) := rfl

lemma succ_div_mod_lt {n H : Nat} (hH : 0 < H) (h : n % H + 1 < H) :
    (n + 1) / H = n / H ∧ (n + 1) % H = n % H + 1 := by
  have h1 : H * (n / H) + n % H = n := Nat.div_add_mod n H
  exact (Nat.div_mod_unique hH).mpr ⟨by omega, h⟩

lemma succ_div_mod_eq {n H : Nat} (hH : 0 < H) (h : n % H + 1 = H) :
    (n + 1) / H = n / H + 1 ∧ (n + 1) % H = 0 := by
  have h1 : H * (n / H) + n % H = n := Nat.div_add_mod n H
  have h2 : H * (n / H + 1) = H * (n / H) + H := by ring
  exact (Nat.div_mod_unique hH).mpr ⟨by omega, hH⟩

lemma conn_create_iter_shape (socks : Nat → socket) (hs : List tcpha_fe_herder)
    (hH : 0 < hs.length) (hz : load_list hs = List.replicate hs.length 0) :
    ∀ N, N + 1 < MAX_INT →
      load_list (conn_create_iter socks N hs) =
        List.replicate (N % hs.length) (N / hs.length + 1) ++
          List.replicate (hs.length - N % hs.length) (N / hs.length) := by
  intro N
  induction N with
  | zero =>
    intro _
    simpa [conn_create_iter, Nat.zero_mod, Nat.zero_div] using hz
  | succ n ih =>
    intro hb
    have hshape := ih (by omega)
    have hq1 : n / hs.length + 1 < MAX_INT := by
      have := Nat.div_le_self n hs.length
      omega
    have hrH : n % hs.length < hs.length := Nat.mod_lt _ hH
    have hsub : hs.length - n % hs.length = (hs.length - n % hs.length - 1) + 1 := by omega
    have hscan : nat_scan (load_list (conn_create_iter socks n hs)) MAX_INT =
        some (n % hs.length) := by
      rw [hshape, hsub]
      exact nat_scan_shape _ _ _ _ hq1
    have hstep : conn_create_iter socks (n + 1) hs =
        conn_pool_add (conn_create_iter socks n hs) (n % hs.length) (socks n) := by
      simp only [conn_create_iter, tcpha_fe_conn_create_true]
      rw [least_loaded_scan_eq_nat_scan, hscan]
    rw [hstep, load_list_conn_pool_add, hshape, hsub, inc_at_replicate_append]
    have hinc : inc_at ((n / hs.length) ::
        List.replicate (hs.length - n % hs.length - 1) (n / hs.length)) 0 =
        (n / hs.length + 1) ::
          List.replicate (hs.length - n % hs.length - 1) (n / hs.length) := rfl
    rw [List.replicate_succ, hinc]
    by_cases hc : n % hs.length + 1 < hs.length
    · obtain ⟨hd, hm⟩ := succ_div_mod_lt hH hc
      rw [hd, hm, List.replicate_succ', List.append_assoc, List.singleton_append]
      have hcnt : hs.length - (n % hs.length + 1) = hs.length - n % hs.length - 1 := by omega
      rw [hcnt]
    · have hc2 : n % hs.length + 1 = hs.length := by omega
      obtain ⟨hd, hm⟩ := succ_div_mod_eq hH hc2
      rw [hd, hm]
      have h0 : hs.length - n % hs.length - 1 = 0 := by omega
      rw [h0]
      simp only [List.replicate_zero, List.nil_append, Nat.sub_zero]
      rw [show ((n / hs.length + 1) :: ([] : List Nat)) = [n / hs.length + 1] from rfl]
      rw [← List.replicate_succ', hc2]

lemma load_list_replicate_zero (hs : List tcpha_fe_herder)
    (hz : ∀ h ∈ hs, h.pool_size = 0) :
    load_list hs = List.replicate hs.length 0 := by
  rw [List.eq_replicate_iff]
  refine ⟨by simp [load_list], ?_⟩
  intro b hb
  rcases List.mem_map.mp hb with ⟨h, hmem, rfl⟩
  exact hz h hmem

lemma load_list_getD_lt {hs : List tcpha_fe_herder}
    (hsmall : ∀ h ∈ hs, h.pool_size < MAX_INT) {j : Nat} (hj : j < (load_list hs).length) :
    (load_list hs).getD j 0 < MAX_INT := by
  rw [List.getD_eq_getElem _ _ hj]
  have hmem : (load_list hs)[j] ∈ load_list hs := List.getElem_mem hj
  rcases List.mem_map.mp hmem with ⟨h, hm, he⟩
  rw [← he]
  exact hsmall h hm

/-- C6: `tcpha_fe_conn_create` dispatches to the first herder attaining
the minimal shard load counter — the scan returns an index that is a
first minimum, and the call links the connection there and increments
that counter — and consequently `N` sequential dispatches against `H`
herders that start empty leave every herder with either
`⌈N/H⌉ = (N+H-1)/H` or `⌊N/H⌋` connections. -/
theorem conn_create_least_loaded_balanced (socks : Nat → socket)
    (hs : List tcpha_fe_herder) (N : Nat) (hH : 0 < hs.length)
    (hz : ∀ h ∈ hs, h.pool_size = 0) (hN : N + 1 < MAX_INT) :
    (∀ (hs2 : List tcpha_fe_herder) (s : socket) (i : Nat),
      least_loaded_scan hs2 MAX_INT = some i →
      (∀ h ∈ hs2, h.pool_size < MAX_INT) →
      is_first_min (load_list hs2) i ∧
      (tcpha_fe_conn_create true hs2 s).herders = conn_pool_add hs2 i s ∧
      (tcpha_fe_conn_create true hs2 s).ret = 0) ∧
    (∀ h ∈ conn_create_iter socks N hs,
      h.pool_size = (N + hs.length - 1) / hs.length ∨
      h.pool_size = N / hs.length) := by
  constructor
  · intro hs2 s i hscan hsmall
    rw [least_loaded_scan_eq_nat_scan] at hscan
    obtain ⟨h1, _h2, h3, h4⟩ := nat_scan_some hscan
    refine ⟨⟨h1, ?_, h4⟩, ?_, ?_⟩
    · intro j hj
      rcases h3 j hj with hle | hm
      · exact hle
      · exact absurd hm (Nat.not_le_of_lt (load_list_getD_lt hsmall hj))
    · rw [tcpha_fe_conn_create_true, least_loaded_scan_eq_nat_scan, hscan]
    · rw [tcpha_fe_conn_create_true, least_loaded_scan_eq_nat_scan, hscan]
  · intro h hmem
    have hz2 := load_list_replicate_zero hs hz
    have hshape := conn_create_iter_shape socks hs hH hz2 N hN
    have hmem2 : h.pool_size ∈ load_list (conn_create_iter socks N hs) :=
      List.mem_map_of_mem _ hmem
    rw [hshape] at hmem2
    rcases List.mem_append.mp hmem2 with hin | hin
    · have heq := List.eq_of_mem_replicate hin
      left
      have hr0 : N % hs.length ≠ 0 := by
        intro h0
        rw [h0] at hin
        simp at hin
      have h1 : hs.length * (N / hs.length) + N % hs.length = N := Nat.div_add_mod N hs.length
      have h2 : hs.length * (N / hs.length + 1) =
          hs.length * (N / hs.length) + hs.length := by ring
      have hrH : N % hs.length < hs.length := Nat.mod_lt _ hH
      have h3 : (N + hs.length - 1) / hs.length = N / hs.length + 1 ∧
          (N + hs.length - 1) % hs.length = N % hs.length - 1 :=
        (Nat.div_mod_unique hH).mpr ⟨by omega, by omega⟩
      omega
    · have heq := List.eq_of_mem_replicate hin
      right
      exact heq

/-- C6 witness: three dispatches against the two idle herders of
`hs_w` leave loads of exactly `⌈3/2⌉ = 2` or `⌊3/2⌋ = 1`. -/
theorem conn_create_least_loaded_balanced_witness :
    (0 < hs_w.length ∧ (∀ h ∈ hs_w, h.pool_size = 0) ∧ 3 + 1 < MAX_INT) ∧
    ((∀ (hs2 : List tcpha_fe_herder) (s : socket) (i : Nat),
        least_loaded_scan hs2 MAX_INT = some i →
        (∀ h ∈ hs2, h.pool_size < MAX_INT) →
        is_first_min (load_list hs2) i ∧
        (tcpha_fe_conn_create true hs2 s).herders = conn_pool_add hs2 i s ∧
        (tcpha_fe_conn_create true hs2 s).ret = 0) ∧
     (∀ h ∈ conn_create_iter socks_w 3 hs_w,
        h.pool_size = (3 + hs_w.length - 1) / hs_w.length ∨
        h.pool_size = 3 / hs_w.length)) :=
  ⟨⟨by decide, by decide, by decide⟩,
   conn_create_least_loaded_balanced socks_w hs_w 3 (by decide) (by decide) (by decide)⟩

end TcphaFe
